import Mathlib

/-!
# Snack catalog: view-model (`SnacksPicker.tsx`) and API handlers (`snackController.js`)

A shallow embedding of the client component's state handlers and of the
backend controller, with the JavaScript runtime operations they rely on
(property lookup on plain objects, `trim`, `includes`, `startsWith`,
`Number(string)`, truthiness, `||`, `??`).
-/

set_option autoImplicit false

namespace Snacks

/-! ## JavaScript numbers -/

/-- An IEEE-754 binary64 value. A finite value is `(-1)^neg * m * 2^e`, kept in
the canonical form where `m` is odd, or `m = 0` and `e = 0` (signed zero). -/
inductive JSNumber where
  | nan
  | inf (neg : Bool)
  | fin (neg : Bool) (m : Nat) (e : Int)
  deriving DecidableEq, Repr

namespace JSNumber

/-- The value `+0`. -/
def zero : JSNumber := .fin false 0 0

/-- Move factors of two from the significand into the exponent (canonical form). -/
def stripZeros : Nat → Nat → Int → Nat × Int
  | 0, m, e => (m, e)
  | fuel + 1, m, e =>
    if m ≠ 0 ∧ m % 2 = 0 then stripZeros fuel (m / 2) (e + 1) else (m, e)

/-- The test `Number.isNaN(v)`. -/
def isNaN : JSNumber → Bool
  | .nan => true
  | _ => false

/-- The comparison `v < 0`: false for NaN and for both zeros. -/
def ltZero : JSNumber → Bool
  | .nan => false
  | .inf neg => neg
  | .fin neg m _ => neg && m != 0

/-- Falsy numbers are `+0`, `-0` and NaN. -/
def truthy : JSNumber → Bool
  | .nan => false
  | .inf _ => true
  | .fin _ m _ => m != 0

end JSNumber

/-- Number of binary digits of `n`, by halving with fuel. -/
def bitLengthAux : Nat → Nat → Nat
  | 0, _ => 0
  | fuel + 1, n => if n = 0 then 0 else bitLengthAux fuel (n / 2) + 1

/-- Number of binary digits of `n` (`0` for `0`). -/
def bitLength (n : Nat) : Nat := bitLengthAux n n

/-- The fraction `a / (b * 2^k)` as a numerator and denominator, for any integer `k`. -/
def scaled (a b : Nat) (k : Int) : Nat × Nat :=
  if 0 ≤ k then (a, b * 2 ^ k.toNat) else (a * 2 ^ (-k).toNat, b)

/-- Round the non-negative rational `a / b` (`b > 0`) to the nearest binary64
value, ties to even, with the given sign; overflow gives an infinity and
underflow a signed zero. -/
def roundBinary64 (neg : Bool) (a b : Nat) : JSNumber :=
  if a = 0 then .fin neg 0 0 else
    let d : Int := (bitLength a : Int) - (bitLength b : Int)
    let sd := scaled a b d
    let expo : Int := if sd.2 ≤ sd.1 then d else d - 1
    let qe : Int := max (expo - 52) (-1074)
    let s := scaled a b qe
    let m0 := s.1 / s.2
    let r := s.1 % s.2
    let m := if s.2 < 2 * r ∨ (2 * r = s.2 ∧ m0 % 2 = 1) then m0 + 1 else m0
    if m = 0 then .fin neg 0 0
    else if 1024 < (bitLength m : Int) + qe then .inf neg
    else
      let c := JSNumber.stripZeros 64 m qe
      .fin neg c.1 c.2

/-! ## JavaScript strings -/

/-- The code points that `String.prototype.trim` and `Number(string)` treat as
white space (WhiteSpace and LineTerminator of the language grammar). -/
def isJSWhiteSpace (c : Char) : Bool :=
  let n := c.toNat
  n = 0x09 || n = 0x0A || n = 0x0B || n = 0x0C || n = 0x0D || n = 0x20 ||
  n = 0xA0 || n = 0x1680 || (0x2000 ≤ n && n ≤ 0x200A) || n = 0x2028 ||
  n = 0x2029 || n = 0x202F || n = 0x205F || n = 0x3000 || n = 0xFEFF

/-- Drop white space from the front of a character list. -/
def trimStart : List Char → List Char
  | [] => []
  | c :: cs => if isJSWhiteSpace c then trimStart cs else c :: cs

/-- The method `s.trim()` on character lists. -/
def trimChars (cs : List Char) : List Char :=
  (trimStart (trimStart cs).reverse).reverse

/-- The method `s.trim()`. -/
def trim (s : String) : String := String.mk (trimChars s.toList)

/-- The method `s.includes(q)`: `q` occurs in `s` as a contiguous run. -/
def includes (s q : String) : Bool :=
  s.toList.tails.any (fun t => q.toList.isPrefixOf t)

/-- The method `s.startsWith(p)`. -/
def startsWith (s p : String) : Bool := p.toList.isPrefixOf s.toList

/-! ## `Number(string)` -/

/-- Is the character a decimal digit. -/
def isDigit (c : Char) : Bool := 48 ≤ c.toNat && c.toNat ≤ 57

/-- Value of a digit in a radix up to sixteen, if the character is one. -/
def digitValue (radix : Nat) (c : Char) : Option Nat :=
  let n := c.toNat
  let v : Option Nat :=
    if 48 ≤ n && n ≤ 57 then some (n - 48)
    else if 97 ≤ n && n ≤ 102 then some (n - 87)
    else if 65 ≤ n && n ≤ 70 then some (n - 55)
    else none
  match v with
  | some d => if d < radix then some d else none
  | none => none

/-- Read a whole character list as digits of the radix; `none` if any character
is not a digit. -/
def readDigits (radix : Nat) : Nat → List Char → Option Nat
  | acc, [] => some acc
  | acc, c :: cs =>
    match digitValue radix c with
    | some d => readDigits radix (radix * acc + d) cs
    | none => none

/-- The exponent part after `e`/`E`: an optional sign and at least one digit. -/
def readExponent (cs : List Char) : Option Int :=
  match cs with
  | [] => none
  | '+' :: ds => if ds.isEmpty then none else (readDigits 10 0 ds).map Int.ofNat
  | '-' :: ds => if ds.isEmpty then none else (readDigits 10 0 ds).map (fun n => -Int.ofNat n)
  | ds => (readDigits 10 0 ds).map Int.ofNat

/-- StrUnsignedDecimalLiteral other than `Infinity`: digits, an optional
fraction, an optional exponent, with at least one digit before the exponent. -/
def readUnsignedDecimal (neg : Bool) (cs : List Char) : JSNumber :=
  let intPart := cs.takeWhile isDigit
  let rest := cs.dropWhile isDigit
  let fracPart := match rest with
    | '.' :: r => r.takeWhile isDigit
    | _ => []
  let rest2 := match rest with
    | '.' :: r => r.dropWhile isDigit
    | r => r
  if intPart.isEmpty && fracPart.isEmpty then .nan else
    let expo : Option Int := match rest2 with
      | [] => some 0
      | 'e' :: r => readExponent r
      | 'E' :: r => readExponent r
      | _ => none
    match expo, readDigits 10 0 (intPart ++ fracPart) with
    | some x, some mant =>
      let k : Int := x - fracPart.length
      if 0 ≤ k then roundBinary64 neg (mant * 10 ^ k.toNat) 1
      else roundBinary64 neg mant (10 ^ (-k).toNat)
    | _, _ => .nan

/-- StrDecimalLiteral without its sign. -/
def readUnsigned (neg : Bool) (cs : List Char) : JSNumber :=
  if cs = "Infinity".toList then .inf neg else readUnsignedDecimal neg cs

/-- NonDecimalIntegerLiteral body: at least one digit of the radix. -/
def readRadix (radix : Nat) (ds : List Char) : JSNumber :=
  if ds.isEmpty then .nan else
    match readDigits radix 0 ds with
    | some n => roundBinary64 false n 1
    | none => .nan

/-- The conversion `Number(s)` of a string `s` (StringToNumber): surrounding white space is
ignored, the empty string is `+0`, anything outside the numeric grammar is NaN. -/
def Number (s : String) : JSNumber :=
  match trimChars s.toList with
  | [] => JSNumber.zero
  | '0' :: 'x' :: ds => readRadix 16 ds
  | '0' :: 'X' :: ds => readRadix 16 ds
  | '0' :: 'o' :: ds => readRadix 8 ds
  | '0' :: 'O' :: ds => readRadix 8 ds
  | '0' :: 'b' :: ds => readRadix 2 ds
  | '0' :: 'B' :: ds => readRadix 2 ds
  | '+' :: cs => readUnsigned false cs
  | '-' :: cs => readUnsigned true cs
  | cs => readUnsigned false cs

/-! ## Client data model (`SnacksPicker.tsx`) -/

/-- The `Snack` interface: `_id` and `id` are optional. -/
structure Snack where
  _id : Option String
  id : Option JSNumber
  name : String
  price : JSNumber
  category : String
  img : String
  deriving DecidableEq, Repr

/-- A `Record<string, Snack[]>` as the list of its own entries, in
`Object.entries` order. The keys in use are category names; keys that look
like array indices, which the runtime would list first, do not occur. -/
abbrev Catalog := List (String × List Snack)

/-- The initial `data` state and the initial `grouped` object of the fetch effect. -/
def emptyCatalog : Catalog :=
  [("Vegetarian", []), ("Non Vegetarian", []), ("Juice", [])]

/-- Own property of a record: the bucket stored under the key, if any. -/
def ownProp : Catalog → String → Option (List Snack)
  | [], _ => none
  | (k, v) :: rest, key => if k = key then some v else ownProp rest key

/-- Assignment `o[key] = v` (also `{...o, [key]: v}`): an existing key keeps its
place, a new key goes to the end. -/
def setProp : Catalog → String → List Snack → Catalog
  | [], key, v => [(key, v)]
  | (k, w) :: rest, key, v =>
    if k = key then (k, v) :: rest else (k, w) :: setProp rest key v

/-- Names every plain object inherits from `Object.prototype`; under each of
them `o[name]` is a function (or, for `__proto__`, the prototype object). -/
def objectPrototypeProps : List String :=
  ["constructor", "__defineGetter__", "__defineSetter__", "hasOwnProperty",
   "__lookupGetter__", "__lookupSetter__", "isPrototypeOf", "propertyIsEnumerable",
   "toString", "valueOf", "__proto__", "toLocaleString"]

/-- Result of the property read `o[key]` on a plain object holding arrays. -/
inductive PropRead where
  | own (items : List Snack)
  | inherited
  | undefined
  deriving DecidableEq, Repr

/-- The read `o[key]`: own properties first, then the prototype. -/
def getProp (o : Catalog) (key : String) : PropRead :=
  match ownProp o key with
  | some items => .own items
  | none => if key ∈ objectPrototypeProps then .inherited else .undefined

/-- Body of the `forEach` callback of the fetch effect:
`if (grouped[snack.category]) grouped[snack.category].push(snack)`.
Arrays and inherited members are truthy; only arrays have `push`. -/
def groupStep (grouped : Catalog) (snack : Snack) : Except String Catalog :=
  match getProp grouped snack.category with
  | .own items => .ok (setProp grouped snack.category (items ++ [snack]))
  | .inherited => .error "TypeError: grouped[snack.category].push is not a function"
  | .undefined => .ok grouped

/-- The grouping loop `res.data.forEach(...)` over a fresh `grouped`. -/
def groupLoop : Catalog → List Snack → Except String Catalog
  | grouped, [] => .ok grouped
  | grouped, snack :: rest =>
    match groupStep grouped snack with
    | .ok g => groupLoop g rest
    | .error e => .error e

/-- The grouping step of the fetch effect, from the response body. -/
def group (resData : List Snack) : Except String Catalog :=
  groupLoop emptyCatalog resData

/-- An uploaded file handle. -/
structure File where
  name : String
  deriving DecidableEq, Repr

/-- The `editing` state. -/
structure Editing where
  cat : String
  id : String
  deriving DecidableEq, Repr

/-- The component state (all `useState` cells). -/
structure State where
  data : Catalog
  query : String
  selected : List (String × Nat)
  editing : Option Editing
  draftPrice : String
  showUpload : Bool
  uploadCat : String
  uploadName : String
  uploadPrice : String
  previewUrl : String
  file : Option File
  deriving DecidableEq, Repr

/-- The state on mount. -/
def initialState : State :=
  { data := emptyCatalog, query := "", selected := [], editing := none,
    draftPrice := "", showUpload := false, uploadCat := "Vegetarian",
    uploadName := "", uploadPrice := "", previewUrl := "", file := none }

/-- Observable actions of a handler, in the order they happen. -/
inductive Effect where
  | get (url : String)
  | put (url : String) (price : JSNumber)
  | post (url : String) (name price category : String) (img : File)
  | delete (url : String)
  | confirm (msg : String)
  | alert (msg : String)
  | consoleError (label : String)
  deriving DecidableEq, Repr

deriving instance DecidableEq for Except

/-- What a handler leaves behind: the actions it performed and the next state,
or the error a state updater raised while rendering. -/
structure Outcome where
  effects : List Effect
  next : Except String State

/-- Is the action a request to the API. -/
def Effect.isRequest : Effect → Bool
  | .get _ => true
  | .put _ _ => true
  | .post _ _ _ _ _ => true
  | .delete _ => true
  | _ => false

/-- The bucket a handler leaves under a category, when it does not crash. -/
def Outcome.bucket (o : Outcome) (cat : String) : Option (List Snack) :=
  match o.next with
  | .ok s => ownProp s.data cat
  | .error _ => none

/-- The constant `API`. -/
def API : String := "https://snacks-backend-dm28.onrender.com/api/snacks"

/-- The fetch effect run on mount; `reply` is what `axios.get(API)` settles to.
An exception thrown while grouping rejects the promise chain and reaches the
same `.catch` as a failed request. -/
def fetchEffect (reply : Except String (List Snack)) (s : State) : Outcome :=
  match reply with
  | .ok resData =>
    match group resData with
    | .ok grouped => { effects := [.get API], next := .ok { s with data := grouped } }
    | .error _ =>
      { effects := [.get API, .consoleError "Error fetching snacks:"], next := .ok s }
  | .error _ =>
    { effects := [.get API, .consoleError "Error fetching snacks:"], next := .ok s }

/-- The `filtered` memo. `toLowerCase` is the runtime's
`String.prototype.toLowerCase`. -/
def filtered (toLowerCase : String → String) (data : Catalog) (query : String) : Catalog :=
  let q := toLowerCase (trim query)
  if q = "" then data
  else data.map (fun entry => (entry.1, entry.2.filter (fun s => includes (toLowerCase s.name) q)))

/-- Lower-casing of the ASCII letters, the part of `toLowerCase` used on
concrete inputs below. -/
def asciiLower (s : String) : String := String.mk (s.toList.map Char.toLower)

/-- The handler `cancelEdit`. -/
def cancelEdit (s : State) : Outcome :=
  { effects := [], next := .ok { s with editing := none, draftPrice := "" } }

/-- The state updater of `commitEdit`: replace the price of the items of
bucket `cat` whose `_id` is `id`. Without such a bucket the read `prev[cat]`
gives `undefined`, or an inherited member that has no `map`, and the call throws. -/
def applyPrice (prev : Catalog) (cat id : String) (value : JSNumber) : Except String Catalog :=
  match ownProp prev cat with
  | some items =>
    .ok (setProp prev cat
      (items.map (fun it => if it._id = some id then { it with price := value } else it)))
  | none =>
    if cat ∈ objectPrototypeProps then .error "TypeError: prev[cat].map is not a function"
    else .error "TypeError: Cannot read properties of undefined (reading 'map')"

/-- The handler `commitEdit`; `putOk url value` tells whether the update
request settles successfully. -/
def commitEdit (putOk : String → JSNumber → Bool) (s : State) : Outcome :=
  match s.editing with
  | none => { effects := [], next := .ok s }
  | some ed =>
    let value := Number s.draftPrice
    if value.isNaN || value.ltZero then
      { effects := [.alert "Enter a valid price."], next := .ok s }
    else
      let url := API ++ "/" ++ ed.id
      if putOk url value then
        match applyPrice s.data ed.cat ed.id value with
        | .ok updated =>
          { effects := [.put url value],
            next := .ok { s with data := updated, editing := none, draftPrice := "" } }
        | .error e => { effects := [.put url value], next := .error e }
      else
        { effects := [.put url value, .consoleError "Error updating price:"],
          next := .ok { s with editing := none, draftPrice := "" } }

/-- The handler `resetUpload`, as a state change. -/
def resetUpload (s : State) : State :=
  { s with uploadCat := "Vegetarian", uploadName := "", uploadPrice := "",
           previewUrl := "", file := none }

/-- The state updater of `submitUpload`: put the returned record in front of
bucket `uploadCat`. Spreading a missing bucket throws. -/
def prependTo (prev : Catalog) (uploadCat : String) (r : Snack) : Except String Catalog :=
  match ownProp prev uploadCat with
  | some items => .ok (setProp prev uploadCat (r :: items))
  | none => .error "TypeError: prev[uploadCat] is not iterable"

/-- The handler `submitUpload`; `post` gives what the create request settles to. -/
def submitUpload (post : String → String → String → File → Except String Snack)
    (s : State) : Outcome :=
  match s.file with
  | none => { effects := [.alert "Please fill all fields & select a photo."], next := .ok s }
  | some f =>
    if s.uploadName = "" || s.uploadPrice = "" then
      { effects := [.alert "Please fill all fields & select a photo."], next := .ok s }
    else
      let call := Effect.post API s.uploadName s.uploadPrice s.uploadCat f
      match post s.uploadName s.uploadPrice s.uploadCat f with
      | .ok r =>
        match prependTo s.data s.uploadCat r with
        | .ok updated =>
          { effects := [call],
            next := .ok (resetUpload { s with data := updated, showUpload := false }) }
        | .error e => { effects := [call], next := .error e }
      | .error _ =>
        { effects := [call, .consoleError "Error uploading snack:"], next := .ok s }

/-- The state updater of `deleteSnack`. Without a bucket `cat` the read
`prev[cat]` gives `undefined`, or an inherited member that has no `filter`,
and the call throws. -/
def removeFrom (prev : Catalog) (cat id : String) : Except String Catalog :=
  match ownProp prev cat with
  | some items => .ok (setProp prev cat (items.filter (fun s => s._id ≠ some id)))
  | none =>
    if cat ∈ objectPrototypeProps then .error "TypeError: prev[cat].filter is not a function"
    else .error "TypeError: Cannot read properties of undefined (reading 'filter')"

/-- The handler `deleteSnack`; `confirmed` is the answer to `window.confirm`,
`deleteOk url` whether the delete request settles successfully. -/
def deleteSnack (confirmed : Bool) (deleteOk : String → Bool) (cat id : String)
    (s : State) : Outcome :=
  if !confirmed then { effects := [.confirm "Delete this snack?"], next := .ok s }
  else
    let url := API ++ "/" ++ id
    if deleteOk url then
      match removeFrom s.data cat id with
      | .ok updated =>
        { effects := [.confirm "Delete this snack?", .delete url],
          next := .ok { s with data := updated } }
      | .error e =>
        { effects := [.confirm "Delete this snack?", .delete url], next := .error e }
    else
      { effects := [.confirm "Delete this snack?", .delete url, .consoleError "Delete error:"],
        next := .ok s }

/-- The `src` attribute computed for a snack image. -/
def imgSrc (img : String) : String :=
  if startsWith img "http" then img else "http://localhost:5000" ++ img

/-! ## API handlers (`snackController.js`) -/

/-- A JavaScript value as it can appear in a parsed request body or a stored
field; arrays and objects are not told apart. -/
inductive JSValue where
  | undefined
  | null
  | bool (b : Bool)
  | number (n : JSNumber)
  | string (s : String)
  | object
  deriving DecidableEq, Repr

namespace JSValue

/-- Truthiness (`ToBoolean`). -/
def truthy : JSValue → Bool
  | .undefined => false
  | .null => false
  | .bool b => b
  | .number n => n.truthy
  | .string s => s != ""
  | .object => true

/-- The operator `a || b`. -/
def or (a b : JSValue) : JSValue := if a.truthy then a else b

/-- The operator `a ?? b`. -/
def nullish (a b : JSValue) : JSValue :=
  match a with
  | .undefined => b
  | .null => b
  | _ => a

/-- Is the value `undefined` or `null`. -/
def isNullish : JSValue → Bool
  | .undefined => true
  | .null => true
  | _ => false

end JSValue

/-- The fields the handlers read from `req.body`; a missing field is `undefined`. -/
structure Body where
  name : JSValue
  price : JSValue
  category : JSValue
  img : JSValue
  deriving DecidableEq, Repr

/-- The parts of a request the handlers read: `req.params.id`, `req.body`,
and `req.file.path` when the upload middleware stored a file. -/
structure Request where
  id : String
  body : Body
  file : Option String
  deriving DecidableEq, Repr

/-- A snack document with the field values as the handler assigns them. The
schema of the model (`models/snackModel.js`) is not part of the sources, so
its casts and validation are left to the `save` parameter of the handlers. -/
structure SnackDoc where
  _id : String
  name : JSValue
  price : JSValue
  category : JSValue
  img : JSValue
  deriving DecidableEq, Repr

/-- What a handler sends back. -/
inductive Response where
  | doc (status : Nat) (d : SnackDoc)
  | message (status : Nat) (message : String)
  | failure (status : Nat) (message : String) (error : String)
  deriving DecidableEq, Repr

/-- The status code of a response. -/
def Response.status : Response → Nat
  | .doc st _ => st
  | .message st _ => st
  | .failure st _ _ => st

/-- Result of running a handler: the response and the documents handed to
`save()`, in order. -/
structure Handled where
  response : Response
  saveCalls : List SnackDoc
  deriving DecidableEq, Repr

/-- The image source of a request: `req.file ? req.file.path : req.body.img`. -/
def imgOf (req : Request) : JSValue :=
  match req.file with
  | some path => .string path
  | none => req.body.img

/-- The handler `addSnack`. `newId` is the identifier the model gives the new
document, `save` the store write (its error is the thrown message). -/
def addSnack (newId : String) (save : SnackDoc → Except String SnackDoc)
    (req : Request) : Handled :=
  let name := req.body.name
  let price := req.body.price
  let category := req.body.category
  let img := imgOf req
  if !name.truthy || !price.truthy || !category.truthy || !img.truthy then
    { response := .message 400 "All fields are required", saveCalls := [] }
  else
    let newSnack : SnackDoc :=
      { _id := newId, name := name, price := price, category := category, img := img }
    match save newSnack with
    | .ok _ => { response := .doc 201 newSnack, saveCalls := [newSnack] }
    | .error e =>
      { response := .failure 500 "Error adding snack" e, saveCalls := [newSnack] }

/-- The field assignments of `updateSnack` on the document found. -/
def mergeFields (snack : SnackDoc) (req : Request) : SnackDoc :=
  { snack with
    name := req.body.name.or snack.name
    price := req.body.price.nullish snack.price
    category := req.body.category.or snack.category
    img := (imgOf req).or snack.img }

/-- The handler `updateSnack`. `findById` is the store lookup (`none` for an
unknown id), `save` the store write. -/
def updateSnack (findById : String → Except String (Option SnackDoc))
    (save : SnackDoc → Except String SnackDoc) (req : Request) : Handled :=
  match findById req.id with
  | .error e => { response := .failure 500 "Error updating snack" e, saveCalls := [] }
  | .ok none => { response := .message 404 "Snack not found", saveCalls := [] }
  | .ok (some snack) =>
    let merged := mergeFields snack req
    match save merged with
    | .ok updated => { response := .doc 200 updated, saveCalls := [merged] }
    | .error e =>
      { response := .failure 500 "Error updating snack" e, saveCalls := [merged] }

/-! ## Words of the specification used to state the claims -/

/-- From the specification's words "absolute reference (begins with a scheme)":
a letter, then letters, digits, `+`, `-` or `.`, then a colon. -/
def schemeTail : List Char → Bool
  | [] => false
  | c :: cs =>
    if c = ':' then true
    else if c.isAlphanum || c = '+' || c = '-' || c = '.' then schemeTail cs
    else false

/-- Does the string begin with a URL scheme. -/
def beginsWithScheme (s : String) : Bool :=
  match s.toList with
  | [] => false
  | c :: cs => c.isAlpha && schemeTail cs

/-- The catalog invariant of the specification: every snack sits in the bucket
named by its `category` field. -/
def InOwnBucket (data : Catalog) : Prop :=
  ∀ entry ∈ data, ∀ x ∈ entry.2, x.category = entry.1

/-! ## Sample data -/

/-- The record of the first end-to-end scenario. -/
def chips : Snack :=
  { _id := some "a", id := none, name := "Chips", price := .fin false 25 1,
    category := "Vegetarian", img := "/uploads/chips.jpg" }

/-- A record whose category is a name every plain object inherits. -/
def oddCategory : Snack :=
  { _id := some "b", id := none, name := "Mystery box", price := .fin false 5 2,
    category := "constructor", img := "/uploads/box.jpg" }

/-- A catalog with two populated buckets. -/
def sampleCatalog : Catalog :=
  [("Vegetarian", [chips, { chips with _id := some "c", name := "Samosa" }]),
   ("Non Vegetarian", []),
   ("Juice", [{ chips with _id := some "j", name := "Lime juice", category := "Juice" }])]

/-- A state with the price editor open on the item `a` of the Vegetarian bucket. -/
def editingState (draft : String) : State :=
  { initialState with
    data := sampleCatalog, editing := some { cat := "Vegetarian", id := "a" },
    draftPrice := draft }

/-- The record of the fourth end-to-end scenario. -/
def soda : Snack :=
  { _id := some "z", id := none, name := "Soda", price := .fin false 15 1,
    category := "Juice", img := "/uploads/soda.jpg" }

/-- A state with the upload panel open and filled in for category `cat`. -/
def uploadState (cat : String) : State :=
  { initialState with
    data := sampleCatalog, showUpload := true, uploadCat := cat, uploadName := "Soda",
    uploadPrice := "30", previewUrl := "blob:preview", file := some { name := "soda.jpg" } }

/-- A stored document. -/
def storedChips : SnackDoc :=
  { _id := "a", name := .string "Chips", price := .number (.fin false 25 1),
    category := .string "Vegetarian", img := .string "/uploads/chips.jpg" }

/-- An update request whose body carries all four fields as empty strings, as
a form sent with its inputs left empty does. -/
def emptyFieldsUpdate : Request :=
  { id := "a",
    body := { name := .string "", price := .string "", category := .string "",
              img := .string "" },
    file := none }

/-- A JSON create request with the number zero as price. -/
def zeroPriceCreate : Request :=
  { id := "",
    body := { name := .string "Water", price := .number JSNumber.zero,
              category := .string "Juice", img := .string "http://cdn.example/water.png" },
    file := none }

/-! ## Grouping of the fetched list (C1) -/

/-- Grouping over the three fixed buckets, for lists with no category that is
an inherited member name: each bucket grows by the matching items, in order. -/
theorem groupLoop_fixed (l : List Snack)
    (h : ∀ x ∈ l, x.category ∉ objectPrototypeProps) (a b c : List Snack) :
    groupLoop [("Vegetarian", a), ("Non Vegetarian", b), ("Juice", c)] l =
      .ok [("Vegetarian", a ++ l.filter (fun x => decide (x.category = "Vegetarian"))),
           ("Non Vegetarian", b ++ l.filter (fun x => decide (x.category = "Non Vegetarian"))),
           ("Juice", c ++ l.filter (fun x => decide (x.category = "Juice")))] := by
  induction l generalizing a b c with
  | nil => simp [groupLoop]
  | cons x xs ih =>
    have hx : x.category ∉ objectPrototypeProps := h x (List.mem_cons_self _ _)
    have hxs : ∀ y ∈ xs, y.category ∉ objectPrototypeProps :=
      fun y hy => h y (List.mem_cons_of_mem _ hy)
    by_cases h1 : x.category = "Vegetarian"
    · have e2 : ¬ x.category = "Non Vegetarian" := by rw [h1]; decide
      have e3 : ¬ x.category = "Juice" := by rw [h1]; decide
      simp [groupLoop, groupStep, getProp, ownProp, setProp, h1, ih hxs, List.filter_cons]
    · by_cases h2 : x.category = "Non Vegetarian"
      · have e3 : ¬ x.category = "Juice" := by rw [h2]; decide
        simp [groupLoop, groupStep, getProp, ownProp, setProp, h2, ih hxs, List.filter_cons]
      · by_cases h3 : x.category = "Juice"
        · simp [groupLoop, groupStep, getProp, ownProp, setProp, h3, ih hxs, List.filter_cons]
        · have n1 : ¬ "Vegetarian" = x.category := fun e => h1 e.symm
          have n2 : ¬ "Non Vegetarian" = x.category := fun e => h2 e.symm
          have n3 : ¬ "Juice" = x.category := fun e => h3 e.symm
          simp [groupLoop, groupStep, getProp, ownProp, n1, n2, n3, h1, h2, h3, hx, ih hxs,
            List.filter_cons]

/-- Grouping succeeds and sorts every item into the bucket of its category
field, dropping the others, whenever no category is an inherited member name. -/
theorem group_buckets (l : List Snack) (h : ∀ x ∈ l, x.category ∉ objectPrototypeProps) :
    group l =
      .ok [("Vegetarian", l.filter (fun x => decide (x.category = "Vegetarian"))),
           ("Non Vegetarian", l.filter (fun x => decide (x.category = "Non Vegetarian"))),
           ("Juice", l.filter (fun x => decide (x.category = "Juice")))] := by
  have := groupLoop_fixed l h [] [] []
  simpa [group, emptyCatalog] using this

/-- Sample of `group_buckets`: the first end-to-end scenario. -/
theorem group_buckets_witness :
    group [chips] = .ok [("Vegetarian", [chips]), ("Non Vegetarian", []), ("Juice", [])] := by
  have h : ∀ x ∈ [chips], x.category ∉ objectPrototypeProps := by
    intro x hx
    rw [List.mem_singleton] at hx
    subst hx
    decide
  have := group_buckets [chips] h
  simpa [chips] using this

/-- C1 (fails on the code): a fetched list holding one item whose category is
`constructor` makes the grouping step throw; the fetch effect then only logs
and the catalog keeps its previous, empty buckets although the list also holds
a Vegetarian item. -/
theorem group_throws_on_inherited_category :
    group [chips, oddCategory]
        = .error "TypeError: grouped[snack.category].push is not a function" ∧
      (fetchEffect (.ok [chips, oddCategory]) initialState).effects
        = [.get API, .consoleError "Error fetching snacks:"] ∧
      (fetchEffect (.ok [chips, oddCategory]) initialState).next = .ok initialState := by
  refine ⟨by decide, by decide, by decide⟩

/-! ## The filtered view (C2, C3) -/

/-- Every string includes the empty string. -/
theorem includes_empty (s : String) : includes s "" = true := by
  unfold includes
  cases h : s.toList with
  | nil => simp
  | cons c cs => simp

/-- C3 (as amended): for every catalog and query, each bucket of the filtered
view is the subsequence, in the original order, of the items whose lower-cased
name contains the lower-cased query with its leading and trailing white space
removed; the keys and their order are those of the catalog. -/
theorem filtered_eq_filter (toLowerCase : String → String) (data : Catalog)
    (query : String) :
    filtered toLowerCase data query =
      data.map (fun entry =>
        (entry.1, entry.2.filter
          (fun s => includes (toLowerCase s.name) (toLowerCase (trim query))))) := by
  unfold filtered
  by_cases hq : toLowerCase (trim query) = ""
  · simp only [hq, if_true, includes_empty, List.filter_true]
    simp
  · simp only [hq, if_false]

/-- C3 (as stated, refuted): with the query typed as `chips ` (trailing blank)
the filtered view keeps the item named Chips, whose name does not contain the
query as typed; the view is not the per-bucket subsequence of names that
contain the typed query. -/
theorem filtered_trims_query_counterexample :
    filtered asciiLower sampleCatalog "chips " ≠
      sampleCatalog.map (fun entry =>
        (entry.1, entry.2.filter
          (fun s => includes (asciiLower s.name) (asciiLower "chips ")))) := by
  decide

/-- C2: filtering is idempotent (filtering the filtered view by the same query
gives the same buckets) and the empty query gives back the catalog unchanged.
The runtime's lower-casing maps the empty string to itself. -/
theorem filtered_idempotent_neutral (toLowerCase : String → String)
    (hlower : toLowerCase "" = "") (data : Catalog) (query : String) :
    filtered toLowerCase (filtered toLowerCase data query) query
        = filtered toLowerCase data query ∧
      filtered toLowerCase data "" = data := by
  constructor
  · unfold filtered
    by_cases hq : toLowerCase (trim query) = ""
    · simp only [hq, if_true]
    · simp only [hq, if_false, List.map_map]
      apply List.map_congr_left
      intro entry _
      simp [List.filter_filter]
  · have ht : trim "" = "" := by decide
    unfold filtered
    simp only [ht, hlower, if_true]

/-- Sample of C2: a mixed-case query with a trailing blank, and the empty query. -/
theorem filtered_idempotent_neutral_witness :
    asciiLower "" = "" ∧
      (filtered asciiLower (filtered asciiLower sampleCatalog "SAM ") "SAM "
          = filtered asciiLower sampleCatalog "SAM " ∧
        filtered asciiLower sampleCatalog "" = sampleCatalog) :=
  ⟨by decide, filtered_idempotent_neutral asciiLower (by decide) sampleCatalog "SAM "⟩

/-! ## Records as entry lists -/

/-- After `o[key] = v` the key holds `v`. -/
theorem ownProp_setProp_same (o : Catalog) (key : String) (v : List Snack) :
    ownProp (setProp o key v) key = some v := by
  induction o with
  | nil => simp [setProp, ownProp]
  | cons e rest ih =>
    obtain ⟨k, w⟩ := e
    by_cases hk : k = key
    · simp [setProp, ownProp, hk]
    · simp [setProp, ownProp, hk, ih]

/-- The assignment `o[key] = v` leaves every other key as it was. -/
theorem ownProp_setProp_other (o : Catalog) (key c : String) (v : List Snack)
    (hc : c ≠ key) : ownProp (setProp o key v) c = ownProp o c := by
  induction o with
  | nil =>
    have : ¬ key = c := fun e => hc e.symm
    simp [setProp, ownProp, this]
  | cons e rest ih =>
    obtain ⟨k, w⟩ := e
    by_cases hk : k = key
    · have : ¬ key = c := fun e => hc e.symm
      simp [setProp, ownProp, hk, this]
    · by_cases hkc : k = c
      · subst hkc
        simp [setProp, ownProp, hk]
      · simp [setProp, ownProp, hk, hkc, ih]

/-- Assigning to an existing key keeps the keys and their order. -/
theorem keys_setProp (o : Catalog) (key : String) (v w : List Snack)
    (h : ownProp o key = some w) :
    (setProp o key v).map Prod.fst = o.map Prod.fst := by
  induction o with
  | nil => simp [ownProp] at h
  | cons e rest ih =>
    obtain ⟨k, u⟩ := e
    by_cases hk : k = key
    · simp [setProp, hk]
    · have h2 : ownProp rest key = some w := by simpa [ownProp, hk] using h
      simp [setProp, hk, ih h2]

/-- Every entry after `o[key] = v` is an old entry or the new one. -/
theorem mem_setProp (o : Catalog) (key : String) (v : List Snack)
    (e : String × List Snack) (he : e ∈ setProp o key v) : e ∈ o ∨ e = (key, v) := by
  induction o with
  | nil =>
    right
    simpa [setProp] using he
  | cons e0 rest ih =>
    obtain ⟨k, u⟩ := e0
    by_cases hk : k = key
    · simp only [setProp, hk, if_true, List.mem_cons] at he
      rcases he with h1 | h1
      · right; exact h1
      · left; exact List.mem_cons_of_mem _ h1
    · simp only [setProp, hk, if_false, List.mem_cons] at he
      rcases he with h1 | h1
      · left; rw [h1]; exact List.mem_cons_self _ _
      · rcases ih h1 with h2 | h2
        · left; exact List.mem_cons_of_mem _ h2
        · right; exact h2

/-- An own property is one of the entries. -/
theorem mem_of_ownProp (o : Catalog) (key : String) (w : List Snack)
    (h : ownProp o key = some w) : (key, w) ∈ o := by
  induction o with
  | nil => simp [ownProp] at h
  | cons e rest ih =>
    obtain ⟨k, u⟩ := e
    by_cases hk : k = key
    · have : u = w := by simpa [ownProp, hk] using h
      rw [hk, this]
      exact List.mem_cons_self _ _
    · have h2 : ownProp rest key = some w := by simpa [ownProp, hk] using h
      exact List.mem_cons_of_mem _ (ih h2)

/-! ## Inline price edit (C4, C5) -/

/-- A draft that `Number` turns into NaN or a negative value is rejected: the
only action is the alert, no request is sent, and the whole state, edit and
draft included, stays as it was. -/
theorem commitEdit_rejects (putOk : String → JSNumber → Bool) (s : State) (ed : Editing)
    (hed : s.editing = some ed)
    (hbad : (Number s.draftPrice).isNaN = true ∨ (Number s.draftPrice).ltZero = true) :
    (commitEdit putOk s).effects = [.alert "Enter a valid price."] ∧
      (commitEdit putOk s).next = .ok s := by
  unfold commitEdit
  rcases hbad with h | h <;> simp [hed, h]

/-- Sample of `commitEdit_rejects`: the third end-to-end scenario, draft `-5`. -/
theorem commitEdit_rejects_witness :
    (commitEdit (fun _ _ => true) (editingState "-5")).effects
        = [.alert "Enter a valid price."] ∧
      (commitEdit (fun _ _ => true) (editingState "-5")).next = .ok (editingState "-5") :=
  commitEdit_rejects (fun _ _ => true) (editingState "-5") { cat := "Vegetarian", id := "a" }
    rfl (Or.inr (by decide))

/-- C4 (fails on the code): with the editor open on item `a` and the draft
cleared to the empty string, which is no number, `commitEdit` does not reject:
`Number("")` is `+0`, so it sends the update request with price 0 and, when the
request succeeds, sets the local price to 0 and closes the editor. -/
theorem commitEdit_empty_draft_sends_zero :
    Number "" = JSNumber.zero ∧
      (commitEdit (fun _ _ => true) (editingState "")).effects
        = [.put "https://snacks-backend-dm28.onrender.com/api/snacks/a" JSNumber.zero] ∧
      (commitEdit (fun _ _ => true) (editingState "")).bucket "Vegetarian"
        = some [{ chips with price := JSNumber.zero },
                { chips with _id := some "c", name := "Samosa" }] ∧
      (commitEdit (fun _ _ => true) (editingState "")).next
        ≠ .ok (editingState "") := by
  refine ⟨by decide, by decide, by decide, by decide⟩

/-- C5: with an edit open on `(cat, id)`, bucket `cat` present, and a draft that
`Number` turns into a value `v` that is neither NaN nor negative, `commitEdit`
sends exactly one request, the update of `id` with price `v`; when it succeeds
the next state has the editor closed and a catalog with the same keys, every
other bucket untouched, and bucket `cat` mapped item by item: an item with that
`_id` gets price `v` and keeps its other fields, any other item is unchanged.
The draft `0` gives the value `+0` and is accepted. -/
theorem commitEdit_accepts (putOk : String → JSNumber → Bool) (s : State) (ed : Editing)
    (items : List Snack)
    (hed : s.editing = some ed)
    (hnan : (Number s.draftPrice).isNaN = false)
    (hneg : (Number s.draftPrice).ltZero = false)
    (hcat : ownProp s.data ed.cat = some items) :
    ((commitEdit putOk s).effects.filter Effect.isRequest
        = [.put (API ++ "/" ++ ed.id) (Number s.draftPrice)]) ∧
      (putOk (API ++ "/" ++ ed.id) (Number s.draftPrice) = true →
        ∃ updated : Catalog,
          (commitEdit putOk s).effects = [.put (API ++ "/" ++ ed.id) (Number s.draftPrice)] ∧
          (commitEdit putOk s).next
            = .ok { s with data := updated, editing := none, draftPrice := "" } ∧
          updated.map Prod.fst = s.data.map Prod.fst ∧
          (∀ c, c ≠ ed.cat → ownProp updated c = ownProp s.data c) ∧
          ownProp updated ed.cat
            = some (items.map (fun it =>
                if it._id = some ed.id then { it with price := Number s.draftPrice } else it))) ∧
      (s.draftPrice = "0" → Number s.draftPrice = JSNumber.zero) := by
  refine ⟨?_, ?_, ?_⟩
  · unfold commitEdit
    by_cases hp : putOk (API ++ "/" ++ ed.id) (Number s.draftPrice) = true
    · simp [hed, hnan, hneg, hp, applyPrice, hcat, Effect.isRequest]
    · simp [hed, hnan, hneg, hp, Effect.isRequest]
  · intro hp
    refine ⟨setProp s.data ed.cat (items.map (fun it =>
        if it._id = some ed.id then { it with price := Number s.draftPrice } else it)),
      ?_, ?_, ?_, ?_, ?_⟩
    · unfold commitEdit
      simp [hed, hnan, hneg, hp, applyPrice, hcat]
    · unfold commitEdit
      simp [hed, hnan, hneg, hp, applyPrice, hcat]
    · exact keys_setProp s.data ed.cat _ items hcat
    · intro c hc
      exact ownProp_setProp_other s.data ed.cat c _ hc
    · exact ownProp_setProp_same s.data ed.cat _
  · intro h0
    rw [h0]
    decide

/-- Sample of C5: the editor open on item `a` with draft `0`, request succeeding. -/
theorem commitEdit_accepts_witness :
    (editingState "0").editing = some { cat := "Vegetarian", id := "a" } ∧
      (Number (editingState "0").draftPrice).isNaN = false ∧
      (Number (editingState "0").draftPrice).ltZero = false ∧
      ownProp (editingState "0").data "Vegetarian"
        = some [chips, { chips with _id := some "c", name := "Samosa" }] ∧
      (commitEdit (fun _ _ => true) (editingState "0")).effects.filter Effect.isRequest
        = [.put (API ++ "/" ++ "a") (Number (editingState "0").draftPrice)] :=
  ⟨rfl, by decide, by decide, by decide,
    (commitEdit_accepts (fun _ _ => true) (editingState "0")
      { cat := "Vegetarian", id := "a" }
      [chips, { chips with _id := some "c", name := "Samosa" }]
      rfl (by decide) (by decide) (by decide)).1⟩

/-! ## Failed requests (C9) -/

/-- A failed update request leaves the catalog and everything but the edit
cells as they were; the editor is closed and the draft cleared. -/
theorem commitEdit_failed_put (putOk : String → JSNumber → Bool) (s : State) (ed : Editing)
    (hed : s.editing = some ed)
    (hnan : (Number s.draftPrice).isNaN = false)
    (hneg : (Number s.draftPrice).ltZero = false)
    (hfail : putOk (API ++ "/" ++ ed.id) (Number s.draftPrice) = false) :
    (commitEdit putOk s).next = .ok { s with editing := none, draftPrice := "" } := by
  unfold commitEdit
  simp [hed, hnan, hneg, hfail]

/-- A failed create request leaves the whole state as it was: nothing is
added, the panel stays open and the draft is kept. -/
theorem submitUpload_failed_post
    (post : String → String → String → File → Except String Snack) (s : State) (f : File)
    (e : String) (hf : s.file = some f) (hn : s.uploadName ≠ "") (hp : s.uploadPrice ≠ "")
    (hfail : post s.uploadName s.uploadPrice s.uploadCat f = .error e) :
    (submitUpload post s).next = .ok s ∧
      (submitUpload post s).effects
        = [.post API s.uploadName s.uploadPrice s.uploadCat f,
           .consoleError "Error uploading snack:"] := by
  unfold submitUpload
  simp [hf, hn, hp, hfail]

/-- A failed delete request leaves the whole state as it was: the item stays. -/
theorem deleteSnack_failed (deleteOk : String → Bool) (cat id : String) (s : State)
    (hfail : deleteOk (API ++ "/" ++ id) = false) :
    (deleteSnack true deleteOk cat id s).next = .ok s := by
  unfold deleteSnack
  simp [hfail]

/-- C9 (fails on the code): the editor is open on item `a` with draft `75` and
the update request fails. The catalog keeps the old price, but the state after
`commitEdit` is not the state before it: the editor is closed and the draft is
cleared. -/
theorem commitEdit_failed_put_closes_edit :
    (commitEdit (fun _ _ => false) (editingState "75")).effects
        = [.put "https://snacks-backend-dm28.onrender.com/api/snacks/a" (.fin false 75 0),
           .consoleError "Error updating price:"] ∧
      (commitEdit (fun _ _ => false) (editingState "75")).next
        = .ok { editingState "75" with editing := none, draftPrice := "" } ∧
      (commitEdit (fun _ _ => false) (editingState "75")).next ≠ .ok (editingState "75") := by
  refine ⟨by decide, by decide, by decide⟩

/-! ## Upload (C8) -/

/-- The upload on the draft category: with name, price and file present, bucket
`uploadCat` present, and the create request returning `r`, `submitUpload` sends
that one request and leaves a catalog in which `r` is the first element of
bucket `uploadCat`, followed by that bucket's previous items in order; the keys
and all other buckets are unchanged, the panel is closed and the draft is
reset. When `r.category` is the draft category, the invariant that every snack
sits in the bucket of its category is preserved. -/
theorem submitUpload_prepends
    (post : String → String → String → File → Except String Snack) (s : State) (f : File)
    (r : Snack) (items : List Snack)
    (hf : s.file = some f) (hn : s.uploadName ≠ "") (hp : s.uploadPrice ≠ "")
    (hcat : ownProp s.data s.uploadCat = some items)
    (hr : post s.uploadName s.uploadPrice s.uploadCat f = .ok r) :
    ∃ updated : Catalog,
      (submitUpload post s).effects = [.post API s.uploadName s.uploadPrice s.uploadCat f] ∧
      (submitUpload post s).next
        = .ok { s with data := updated, showUpload := false, uploadCat := "Vegetarian",
                       uploadName := "", uploadPrice := "", previewUrl := "", file := none } ∧
      ownProp updated s.uploadCat = some (r :: items) ∧
      (∀ c, c ≠ s.uploadCat → ownProp updated c = ownProp s.data c) ∧
      updated.map Prod.fst = s.data.map Prod.fst ∧
      (r.category = s.uploadCat → InOwnBucket s.data → InOwnBucket updated) := by
  refine ⟨setProp s.data s.uploadCat (r :: items), ?_, ?_, ?_, ?_, ?_, ?_⟩
  · unfold submitUpload
    simp [hf, hn, hp, hr, prependTo, hcat]
  · unfold submitUpload
    simp [hf, hn, hp, hr, prependTo, hcat, resetUpload]
  · exact ownProp_setProp_same s.data s.uploadCat _
  · intro c hc
    exact ownProp_setProp_other s.data s.uploadCat c _ hc
  · exact keys_setProp s.data s.uploadCat _ items hcat
  · intro hrc hinv entry hentry x hx
    rcases mem_setProp s.data s.uploadCat _ entry hentry with h | h
    · exact hinv entry h x hx
    · rw [h] at hx ⊢
      simp only [List.mem_cons] at hx
      rcases hx with h1 | h1
      · rw [h1]; exact hrc
      · exact hinv (s.uploadCat, items) (mem_of_ownProp s.data s.uploadCat items hcat) x h1

/-- C8: for every catalog and every upload draft with name, price and file
present, when the create request succeeds and returns record `r` (the record
the server built from the posted fields, so that its category field is the
posted draft category), `submitUpload` sends that one request and yields a
catalog in which `r` is the first element of the bucket matching `r`'s category
field, followed by that bucket's previous items in their previous order; the
keys and all other buckets are unchanged, the panel is closed and the draft is
reset to its defaults; and if every snack sat in the bucket of its category
before, every snack does so afterwards. -/
theorem submitUpload_prepends_own_bucket
    (post : String → String → String → File → Except String Snack) (s : State) (f : File)
    (r : Snack) (items : List Snack)
    (hf : s.file = some f) (hn : s.uploadName ≠ "") (hp : s.uploadPrice ≠ "")
    (hr : post s.uploadName s.uploadPrice s.uploadCat f = .ok r)
    (hecho : r.category = s.uploadCat)
    (hcat : ownProp s.data r.category = some items) :
    ∃ updated : Catalog,
      (submitUpload post s).effects = [.post API s.uploadName s.uploadPrice s.uploadCat f] ∧
      (submitUpload post s).next
        = .ok { s with data := updated, showUpload := false, uploadCat := "Vegetarian",
                       uploadName := "", uploadPrice := "", previewUrl := "", file := none } ∧
      ownProp updated r.category = some (r :: items) ∧
      (∀ c, c ≠ r.category → ownProp updated c = ownProp s.data c) ∧
      updated.map Prod.fst = s.data.map Prod.fst ∧
      (InOwnBucket s.data → InOwnBucket updated) := by
  rw [hecho] at hcat
  obtain ⟨updated, h1, h2, h3, h4, h5, h6⟩ :=
    submitUpload_prepends post s f r items hf hn hp hcat hr
  refine ⟨updated, h1, h2, ?_, ?_, h5, h6 hecho⟩
  · rw [hecho]; exact h3
  · intro c hc
    rw [hecho] at hc
    exact h4 c hc

/-- Sample of C8: the fourth end-to-end scenario, a Soda posted under Juice and
returned by the server with category Juice. -/
theorem submitUpload_prepends_own_bucket_witness :
    (uploadState "Juice").file = some { name := "soda.jpg" } ∧
      (uploadState "Juice").uploadName ≠ "" ∧ (uploadState "Juice").uploadPrice ≠ "" ∧
      soda.category = (uploadState "Juice").uploadCat ∧
      ownProp (uploadState "Juice").data soda.category
        = some [{ chips with _id := some "j", name := "Lime juice", category := "Juice" }] ∧
      ∃ updated : Catalog,
        (submitUpload (fun _ _ _ _ => .ok soda) (uploadState "Juice")).effects
          = [.post API "Soda" "30" "Juice" { name := "soda.jpg" }] ∧
        (submitUpload (fun _ _ _ _ => .ok soda) (uploadState "Juice")).next
          = .ok { uploadState "Juice" with
                    data := updated, showUpload := false, uploadCat := "Vegetarian",
                    uploadName := "", uploadPrice := "", previewUrl := "", file := none } ∧
        ownProp updated soda.category
          = some [soda, { chips with _id := some "j", name := "Lime juice", category := "Juice" }] ∧
        (∀ c, c ≠ soda.category → ownProp updated c = ownProp (uploadState "Juice").data c) ∧
        updated.map Prod.fst = (uploadState "Juice").data.map Prod.fst ∧
        (InOwnBucket (uploadState "Juice").data → InOwnBucket updated) :=
  ⟨rfl, by decide, by decide, by decide, by decide,
    submitUpload_prepends_own_bucket (fun _ _ _ _ => .ok soda) (uploadState "Juice")
      { name := "soda.jpg" } soda
      [{ chips with _id := some "j", name := "Lime juice", category := "Juice" }]
      rfl (by decide) (by decide) rfl (by decide) (by decide)⟩

/-! ## Image address (C10) -/

/-- C10 (as amended): the rendered address equals `img` itself exactly when
`img` starts with the four characters `http`; in every other case it is the
fixed base `http://localhost:5000` followed by `img`. -/
theorem imgSrc_spec (img : String) :
    (imgSrc img = img ↔ startsWith img "http" = true) ∧
      imgSrc img
        = (if startsWith img "http" = true then img else "http://localhost:5000" ++ img) := by
  constructor
  · unfold imgSrc
    by_cases h : startsWith img "http" = true
    · simp [h]
    · have h2 : startsWith img "http" = false := by simpa using h
      rw [h2]
      simp only [Bool.false_eq_true, if_false, iff_false]
      intro heq
      have hlen := congrArg String.length heq
      rw [String.length_append] at hlen
      have h21 : "http://localhost:5000".length = 21 := by decide
      omega
  · unfold imgSrc
    by_cases h : startsWith img "http" = true <;> simp [h]

/-- C10 (as stated, refuted): a data URL begins with a scheme, yet the rendered
address is not the value itself but the base followed by it; and the relative
path `http-banner.png` begins with no scheme, yet it is rendered as it is. -/
theorem imgSrc_scheme_counterexample :
    (beginsWithScheme "data:image/png;base64,iVBORw0KGgo=" = true ∧
        imgSrc "data:image/png;base64,iVBORw0KGgo="
          = "http://localhost:5000data:image/png;base64,iVBORw0KGgo=") ∧
      (beginsWithScheme "http-banner.png" = false ∧
        imgSrc "http-banner.png" = "http-banner.png") := by
  refine ⟨⟨by decide, by decide⟩, by decide, by decide⟩

/-! ## `updateSnack` (C6) -/

/-- What `updateSnack` does: for an unknown id the handler answers 404 and saves
nothing. For a known id it saves one document, the found one with each of
name, category and img replaced by the supplied value when that value is
truthy (for a string: not empty) and kept otherwise, and with price replaced
by the supplied value whenever one is supplied (anything but `undefined` or
`null`, so also 0 and the empty string) and kept otherwise; it answers 200
with what the store returns, or 500 when the store fails. -/
theorem updateSnack_spec (findById : String → Except String (Option SnackDoc))
    (save : SnackDoc → Except String SnackDoc) (req : Request) :
    match findById req.id with
    | .error e =>
      updateSnack findById save req
        = { response := .failure 500 "Error updating snack" e, saveCalls := [] }
    | .ok none =>
      updateSnack findById save req
        = { response := .message 404 "Snack not found", saveCalls := [] }
    | .ok (some snack) =>
      ∃ merged : SnackDoc,
        (updateSnack findById save req).saveCalls = [merged] ∧
        merged._id = snack._id ∧
        merged.name = (if req.body.name.truthy then req.body.name else snack.name) ∧
        merged.price = (if req.body.price.isNullish then snack.price else req.body.price) ∧
        merged.category
          = (if req.body.category.truthy then req.body.category else snack.category) ∧
        merged.img = (if (imgOf req).truthy then imgOf req else snack.img) ∧
        (updateSnack findById save req).response
          = (match save merged with
             | .ok updated => .doc 200 updated
             | .error e => .failure 500 "Error updating snack" e) := by
  cases hfind : findById req.id with
  | error e => simp [updateSnack, hfind]
  | ok found =>
    cases found with
    | none => simp [updateSnack, hfind]
    | some snack =>
      refine ⟨mergeFields snack req, ?_, rfl, rfl, ?_, rfl, rfl, ?_⟩
      · unfold updateSnack
        simp only [hfind]
        cases save (mergeFields snack req) <;> rfl
      · unfold mergeFields JSValue.nullish JSValue.isNullish
        cases req.body.price <;> rfl
      · unfold updateSnack
        simp only [hfind]
        cases save (mergeFields snack req) <;> rfl

/-- C6 (fails on the code): an update of an existing snack whose body carries
all four fields as empty strings. The handler keeps the stored name, category
and img, as the claim says for empty fields, but it does not keep the stored
price: the document it hands to the store has the empty string as its price. -/
theorem updateSnack_empty_price_overwrites :
    emptyFieldsUpdate.body.price = .string "" ∧
      (updateSnack (fun _ => .ok (some storedChips)) (fun d => .ok d) emptyFieldsUpdate).saveCalls
        = [{ storedChips with price := .string "" }] ∧
      mergeFields storedChips emptyFieldsUpdate
        = { _id := storedChips._id, name := storedChips.name, price := .string "",
            category := storedChips.category, img := storedChips.img } ∧
      (mergeFields storedChips emptyFieldsUpdate).price ≠ storedChips.price := by
  refine ⟨by decide, by decide, by decide, by decide⟩

/-! ## `addSnack` (C7) -/

/-- The handler answers 400, saving nothing, exactly when one of name, price,
category and image source is falsy. -/
theorem addSnack_rejects_iff (newId : String) (save : SnackDoc → Except String SnackDoc)
    (req : Request) :
    (addSnack newId save req).response.status = 400 ↔
      (req.body.name.truthy = false ∨ req.body.price.truthy = false ∨
        req.body.category.truthy = false ∨ (imgOf req).truthy = false) := by
  unfold addSnack
  cases h1 : req.body.name.truthy <;> cases h2 : req.body.price.truthy <;>
    cases h3 : req.body.category.truthy <;> cases h4 : (imgOf req).truthy <;>
    simp only [h1, h2, h3, h4]
  all_goals first
    | (simp [Response.status]; done)
    | skip
  cases save { _id := newId, name := req.body.name, price := req.body.price,
               category := req.body.category, img := imgOf req } <;>
    simp [Response.status]

/-- When all four values are truthy the handler saves one document holding
exactly them and answers 201 with it, or 500 when the store fails. -/
theorem addSnack_persists (newId : String) (save : SnackDoc → Except String SnackDoc)
    (req : Request)
    (h1 : req.body.name.truthy = true) (h2 : req.body.price.truthy = true)
    (h3 : req.body.category.truthy = true) (h4 : (imgOf req).truthy = true) :
    (addSnack newId save req).saveCalls
        = [{ _id := newId, name := req.body.name, price := req.body.price,
             category := req.body.category, img := imgOf req }] ∧
      (addSnack newId save req).response
        = (match save { _id := newId, name := req.body.name, price := req.body.price,
                        category := req.body.category, img := imgOf req } with
           | .ok _ => .doc 201 { _id := newId, name := req.body.name, price := req.body.price,
                                 category := req.body.category, img := imgOf req }
           | .error e => .failure 500 "Error adding snack" e) := by
  unfold addSnack
  simp only [h1, h2, h3, h4]
  cases save _ <;> simp

/-- The record `addSnack` sends back carries the category of the request body. -/
theorem addSnack_echoes_category (newId : String) (save : SnackDoc → Except String SnackDoc)
    (req : Request) (st : Nat) (d : SnackDoc)
    (h : (addSnack newId save req).response = .doc st d) :
    st = 201 ∧ d.category = req.body.category := by
  unfold addSnack at h
  cases h1 : req.body.name.truthy <;> cases h2 : req.body.price.truthy <;>
    cases h3 : req.body.category.truthy <;> cases h4 : (imgOf req).truthy <;>
    simp only [h1, h2, h3, h4] at h
  all_goals first
    | (simp at h; done)
    | skip
  cases hs : save { _id := newId, name := req.body.name, price := req.body.price,
                    category := req.body.category, img := imgOf req } <;>
    simp [hs] at h
  obtain ⟨h5, h6⟩ := h
  exact ⟨h5.symm, by rw [← h6]⟩

/-- C7 (fails on the code): a JSON create request with name, category and
image URL present and the number 0 as price is answered 400 and nothing is
saved, although all four values are present. -/
theorem addSnack_zero_price_rejected :
    zeroPriceCreate.body.name = .string "Water" ∧
      zeroPriceCreate.body.price = .number JSNumber.zero ∧
      zeroPriceCreate.body.category = .string "Juice" ∧
      imgOf zeroPriceCreate = .string "http://cdn.example/water.png" ∧
      addSnack "z" (fun d => .ok d) zeroPriceCreate
        = { response := .message 400 "All fields are required", saveCalls := [] } := by
  refine ⟨by decide, by decide, by decide, by decide, by decide⟩

end Snacks
